import Mathlib

/-!
Verification development for the KuksaClient connection / subscription layer
(`src/dreamos-core/dk-ivi-lite/src/platform/integrations/vehicle-api/KuksaClient.hpp`).

The header file contains the template bodies (`convertString`, `getCurrentValueAs`,
`getTargetValueAs`, `setCurrentValue`, `setTargetValue`, `setValueInternal`), the
`FieldType` enumeration and the member initializers of the private state
(`connected_{false}`, `autoReconnect_{true}`, `shouldStop_{false}`).  The
corresponding `KuksaClient.cpp` implementation file is not part of the sources,
so the registry, the connection state machine and the thread-join bookkeeping
are modelled from the specification; each such definition is marked
`Modelled from the spec:` in its doc comment.
-/

namespace KuksaSpec

/-! ## C++ formatted stream extraction, as used by `convertString`

`convertString` in the header is
```
std::istringstream iss(str);
iss >> out;
return !iss.fail() && iss.eof();
```
`iss >> out` for an arithmetic `T` is a FormattedInputFunction: it first
constructs a sentry, which (with the default `skipws`) skips leading
whitespace; if end of input is reached while skipping, `failbit` is set and
the extraction is not performed (the out parameter stays untouched).
Otherwise `num_get` runs: it consumes the longest prefix forming the field;
if the field yields no value, `failbit` is set and (since C++11) zero is
written to the out parameter.  `eofbit` is set exactly when the extractor
ran into the end of the input, i.e. when it consumed every character. -/

/-- Whitespace in the default "C" locale, as skipped by the `skipws` sentry. -/
def isCppWs (c : Char) : Bool :=
  c == ' ' || c == '\t' || c == '\n' || c == '\r' ||
  c == Char.ofNat 11 || c == Char.ofNat 12

/-- Result of running a `num_get`-style extractor after a successful sentry:
the (possibly overwritten) out parameter, the unconsumed characters, and
whether `failbit` was raised. -/
structure ExtractOut (α : Type) where
  out : α
  rest : List Char
  fail : Bool

/-- The body of `KuksaClient::convertString`, generic over the stream
extractor of the target type: sentry (whitespace skip, failure on empty),
then extraction, then `!iss.fail() && iss.eof()`.
`eof()` holds exactly when the extractor consumed all remaining input. -/
def convertStringG {α : Type} (extract : List Char → α → ExtractOut α)
    (str : String) (prev : α) : Bool × α :=
  match str.toList.dropWhile isCppWs with
  | [] => (false, prev)
  | c :: cs =>
      let r := extract (c :: cs) prev
      (!r.fail && r.rest.isEmpty, r.out)

/-- Numeric value of a digit string, most significant first. -/
def digitsVal (ds : List Char) : Int :=
  ds.foldl (fun a c => 10 * a + Int.ofNat (c.toNat - 48)) 0

/-- `num_get` extraction of an `int` (decimal, optional sign): consumes an
optional sign and the following run of digits.  If no digit follows, the
conversion fails and (C++11) writes `0` to the out parameter; otherwise the
signed value is written and the unconsumed suffix is returned.
Range clamping on overflow is outside the modelled value range. -/
def intExtract (cs : List Char) (_prev : Int) : ExtractOut Int :=
  let sgn : Int := match cs with
    | '-' :: _ => -1
    | _ => 1
  let cs1 : List Char := match cs with
    | '-' :: t => t
    | '+' :: t => t
    | _ => cs
  let ds := cs1.takeWhile Char.isDigit
  let rest := cs1.dropWhile Char.isDigit
  if ds.isEmpty then ⟨0, cs1, true⟩
  else ⟨sgn * digitsVal ds, rest, false⟩

/-- `KuksaClient::convertString` instantiated at `T = int`. -/
def convertString (str : String) (out : Int) : Bool × Int :=
  convertStringG intExtract str out

/-- `KuksaClient::getCurrentValueAs<int>`: calls the string getter, then
`convertString`.  The string getter (implemented in the missing `.cpp`)
is passed as an opaque function. -/
def getCurrentValueAs (getCurrentValue : String → String)
    (entryPath : String) (out : Int) : Bool × Int :=
  convertString (getCurrentValue entryPath) out

/-- `KuksaClient::getTargetValueAs<int>`: calls the target string getter,
then `convertString`. -/
def getTargetValueAs (getTargetValue : String → String)
    (entryPath : String) (out : Int) : Bool × Int :=
  convertString (getTargetValue entryPath) out

/-! ## Field types and the set-value dispatch -/

/-- `FieldType::FT_VALUE` — for setting the current value. -/
def FT_VALUE : Nat := 1

/-- `FieldType::FT_ACTUATOR_TARGET` — for setting the target actuator value. -/
def FT_ACTUATOR_TARGET : Nat := 2

/-- The canonical set primitive `setValueInternalImpl` (implemented in the
missing `.cpp`): modelled as the RPC request it issues, recording entry
path, serialized value and field indicator. -/
def setValueInternalImpl {α : Type} (entryPath : String) (newValue : α)
    (field : Nat) : String × α × Nat :=
  (entryPath, newValue, field)

/-- `KuksaClient::setValueInternal`, which forwards to `setValueInternalImpl`. -/
def setValueInternal {α : Type} (entryPath : String) (newValue : α)
    (field : Nat) : String × α × Nat :=
  setValueInternalImpl entryPath newValue field

/-- `KuksaClient::setCurrentValue`: dispatches to `setValueInternal` with
`FT_VALUE`. -/
def setCurrentValue {α : Type} (entryPath : String) (newValue : α) :
    String × α × Nat :=
  setValueInternal entryPath newValue FT_VALUE

/-- `KuksaClient::setTargetValue`: dispatches to `setValueInternal` with
`FT_ACTUATOR_TARGET`. -/
def setTargetValue {α : Type} (entryPath : String) (newValue : α) :
    String × α × Nat :=
  setValueInternal entryPath newValue FT_ACTUATOR_TARGET

/-! ## Subscription registry

The header declares the registry state (`activeSubscriptionPaths_`,
`activeSubscriptions_` of `SubscriptionInfo {entryPath, callback, field}`,
`subscriptionThreads_`) but the registration logic lives in the missing
`.cpp`; it is modelled from the specification (§4.2). -/

/-- `SubscriptionKey` — (entryPath, field kind) pair identifying one logical
subscription. -/
structure SubscriptionKey where
  entryPath : String
  field : Nat
deriving DecidableEq

/-- `SubscriptionRecord` — key, caller callback (tracked by an opaque
identity) and the handle of the worker spawned for it. -/
structure SubscriptionRecord where
  key : SubscriptionKey
  callback : Nat
  workerHandle : Nat
deriving DecidableEq

/-- Modelled from the spec: the Subscription Registry (§4.2) — the in-memory
set of active subscription records plus a fresh-handle counter for spawned
workers.  The registration code of `KuksaClient.cpp` is not under the
sources. -/
structure Registry where
  records : List SubscriptionRecord
  nextWorker : Nat
deriving DecidableEq

/-- The registry of a freshly constructed client: no records, no workers. -/
def emptyRegistry : Registry := ⟨[], 0⟩

/-- Whether a record for the given key is present. -/
def hasKey (r : Registry) (k : SubscriptionKey) : Bool :=
  r.records.any (fun rec => decide (rec.key = k))

/-- Number of records carrying the given key. -/
def countKey (r : Registry) (k : SubscriptionKey) : Nat :=
  (r.records.filter (fun rec => decide (rec.key = k))).length

/-- Callbacks of the records carrying the given key. -/
def callbacksFor (r : Registry) (k : SubscriptionKey) : List Nat :=
  (r.records.filter (fun rec => decide (rec.key = k))).map
    (fun rec => rec.callback)

/-- Modelled from the spec: `register(key, callback)` (§4.2) — if the key is
already present the call is idempotent (no duplicate worker, the existing
callback is kept) and reports `false` ("already active"); otherwise one
record with one fresh worker handle is inserted and the call reports `true`
("newly registered"). -/
def register (r : Registry) (k : SubscriptionKey) (cb : Nat) :
    Registry × Bool :=
  if hasKey r k then (r, false)
  else (⟨r.records ++ [⟨k, cb, r.nextWorker⟩], r.nextWorker + 1⟩, true)

/-- Modelled from the spec: `unregister(key)` (§4.2) — removes the record
for the key if present (cancelling its worker) and reports whether an entry
was removed. -/
def unregister (r : Registry) (k : SubscriptionKey) : Registry × Bool :=
  (⟨r.records.filter (fun rec => !decide (rec.key = k)), r.nextWorker⟩,
   hasKey r k)

/-- Modelled from the spec: `subscribeAll(callback)` — registers one
subscription per entry of the configured `signalPaths_` sequence, in order,
all with the supplied callback and the same field kind. -/
def subscribeAll (r : Registry) (signalPaths : List String) (cb : Nat)
    (field : Nat) : Registry :=
  signalPaths.foldl (fun acc p => (register acc ⟨p, field⟩ cb).1) r

/-- Accumulate a path unless it was already seen (first occurrence wins),
mirroring the registry's dedup-on-insert. -/
def addDistinct (acc : List String) (p : String) : List String :=
  if p ∈ acc then acc else acc ++ [p]

/-- The distinct entries of a path sequence, in first-occurrence order —
the set of subscription keys `subscribeAll` actually creates. -/
def distinctList (paths : List String) : List String :=
  paths.foldl addDistinct []

/-! ## Connection state machine -/

/-- `ConnectionState` — the four connectivity states of the Connection
Manager (§3); the header stores it behind `connected_`/`shouldStop_` flags,
the transition logic is in the missing `.cpp`. -/
inductive ConnectionState where
  | Disconnected
  | Connecting
  | Connected
  | Broken
deriving DecidableEq, Fintype

/-- Events that drive the Connection Manager: a connection attempt starting,
its success or failure, a channel-level failure report, and explicit
shutdown. -/
inductive ConnEvent where
  | startConnect
  | connectOk
  | connectFail
  | channelFailure
  | shutdown
deriving DecidableEq, Fintype

/-- Modelled from the spec: the Connection Manager's transition function
(§4.1, §4.3) — connect attempts start from Disconnected or Broken, resolve
from Connecting, channel failure breaks a Connected channel, shutdown
always disconnects; every other event leaves the state unchanged. -/
def connStep : ConnectionState → ConnEvent → ConnectionState
  | _, .shutdown => .Disconnected
  | .Disconnected, .startConnect => .Connecting
  | .Broken, .startConnect => .Connecting
  | .Connecting, .connectOk => .Connected
  | .Connecting, .connectFail => .Broken
  | .Connected, .channelFailure => .Broken
  | s, _ => s

/-- The transition edges the specification declares valid (§3 invariants):
Disconnected→Connecting, Connecting→Connected, Connecting→Broken,
Connected→Broken, Broken→Connecting, and any state→Disconnected. -/
def allowedEdge : ConnectionState → ConnectionState → Bool
  | _, .Disconnected => true
  | .Disconnected, .Connecting => true
  | .Broken, .Connecting => true
  | .Connecting, .Connected => true
  | .Connecting, .Broken => true
  | .Connected, .Broken => true
  | _, _ => false

/-- Modelled from the spec: `isConnected()` — a read of whether the current
state equals Connected (§4.1); the header backs it by the atomic
`connected_` flag. -/
def isConnected (s : ConnectionState) : Bool :=
  decide (s = .Connected)

/-! ## Joining and detaching subscription workers -/

/-- Modelled from the spec: logical return time of
`joinAllSubscriptionsWithTimeout` (§5) — every worker is waited for until
its exit time (`none` = the worker never exits) or until the deadline
`timeout`, whichever comes first; the call returns once the last such wait
resolves. -/
def joinReturnTime (timeout : Nat) (exitTimes : List (Option Nat)) : Nat :=
  exitTimes.foldl
    (fun t e => max t (match e with
      | none => timeout
      | some x => min x timeout)) 0

/-- Modelled from the spec: `detachAllSubscriptions` marks every worker
fire-and-forget and returns without waiting for any of them (§5). -/
def detachReturnTime (_exitTimes : List (Option Nat)) : Nat := 0

/-! ## Client flags -/

/-- The three atomic flags of the client, with the member initializers of
the header: `connected_{false}`, `autoReconnect_{true}`,
`shouldStop_{false}`. -/
structure ClientFlags where
  connected : Bool
  autoReconnect : Bool
  shouldStop : Bool
deriving DecidableEq

/-- Flag state of a freshly constructed client, from the header's member
initializers. -/
def initialFlags : ClientFlags := ⟨false, true, false⟩

/-- Modelled from the spec: `setAutoReconnect(enabled)` — toggles exactly
the auto-reconnect flag (§4.1); the body is in the missing `.cpp`. -/
def setAutoReconnect (c : ClientFlags) (enabled : Bool) : ClientFlags :=
  ⟨c.connected, enabled, c.shouldStop⟩

/-! ## Helper lemmas -/

/-- If no record carries key `k`, filtering the records for `k` gives `[]`. -/
lemma filter_key_eq_nil {r : Registry} {k : SubscriptionKey}
    (h : hasKey r k = false) :
    r.records.filter (fun rec => decide (rec.key = k)) = [] := by
  rw [List.filter_eq_nil_iff]
  intro a ha
  simp only [decide_eq_true_eq]
  intro hk
  have hany : r.records.any (fun rec => decide (rec.key = k)) = true := by
    rw [List.any_eq_true]
    exact ⟨a, ha, by simp [hk]⟩
  rw [hasKey] at h
  rw [hany] at h
  exact Bool.true_eq_false.mp h

/-- A key is registered exactly when it occurs among the records' keys. -/
lemma hasKey_iff_mem_keys (r : Registry) (k : SubscriptionKey) :
    hasKey r k = true ↔ k ∈ r.records.map (fun rec => rec.key) := by
  rw [hasKey, List.any_eq_true]
  constructor
  · rintro ⟨rec, hrec, hdec⟩
    exact List.mem_map.mpr ⟨rec, hrec, of_decide_eq_true hdec⟩
  · intro hk
    obtain ⟨rec, hrec, hkey⟩ := List.mem_map.mp hk
    exact ⟨rec, hrec, decide_eq_true hkey⟩

/-- `subscribeAll` over an arbitrary path sequence: when the starting
registry's records correspond (keys and callbacks) to an already-seen path
list, the final records correspond to folding the sequence through the
first-occurrence accumulator — one record per distinct new path, every
record carrying the supplied callback. -/
lemma subscribeAll_records :
    ∀ (paths : List String) (r : Registry) (cb f : Nat)
      (seen : List String),
      r.records.map (fun rec => rec.key) =
        seen.map (fun q => (⟨q, f⟩ : SubscriptionKey)) →
      r.records.map (fun rec => rec.callback) = seen.map (fun _ => cb) →
      (subscribeAll r paths cb f).records.map (fun rec => rec.key) =
        (paths.foldl addDistinct seen).map
          (fun q => (⟨q, f⟩ : SubscriptionKey)) ∧
      (subscribeAll r paths cb f).records.map (fun rec => rec.callback) =
        (paths.foldl addDistinct seen).map (fun _ => cb) := by
  intro paths
  induction paths with
  | nil => intro r cb f seen hk hc; exact ⟨hk, hc⟩
  | cons p ps ih =>
      intro r cb f seen hk hc
      have hstep : subscribeAll r (p :: ps) cb f =
          subscribeAll (register r ⟨p, f⟩ cb).1 ps cb f := rfl
      have hfold : (p :: ps).foldl addDistinct seen =
          ps.foldl addDistinct (addDistinct seen p) := rfl
      by_cases hp : p ∈ seen
      · have hkey : hasKey r ⟨p, f⟩ = true := by
          rw [hasKey_iff_mem_keys, hk]
          exact List.mem_map.mpr ⟨p, hp, rfl⟩
        have hreg : (register r ⟨p, f⟩ cb).1 = r := by
          rw [register, if_pos hkey]
        have had : addDistinct seen p = seen := by
          rw [addDistinct, if_pos hp]
        rw [hstep, hreg, hfold, had]
        exact ih r cb f seen hk hc
      · have hnotmem :
            ¬ ((⟨p, f⟩ : SubscriptionKey) ∈
              r.records.map (fun rec => rec.key)) := by
          rw [hk]
          intro hmem
          obtain ⟨q, hq, hEq⟩ := List.mem_map.mp hmem
          injection hEq with h1 _
          exact hp (h1 ▸ hq)
        have hkey : hasKey r ⟨p, f⟩ = false := by
          cases hcase : hasKey r ⟨p, f⟩ with
          | false => rfl
          | true =>
              exact absurd ((hasKey_iff_mem_keys r ⟨p, f⟩).mp hcase) hnotmem
        have hreg : (register r ⟨p, f⟩ cb).1 =
            ⟨r.records ++ [⟨⟨p, f⟩, cb, r.nextWorker⟩],
              r.nextWorker + 1⟩ := by
          rw [register, if_neg]
          simp [hkey]
        have had : addDistinct seen p = seen ++ [p] := by
          rw [addDistinct, if_neg hp]
        rw [hstep, hfold, had]
        apply ih
        · rw [hreg]
          simp [hk]
        · rw [hreg]
          simp [hc]

/-- On a duplicate-free sequence disjoint from the accumulator, the
first-occurrence fold just appends. -/
lemma foldl_addDistinct_of_nodup :
    ∀ (paths acc : List String), paths.Nodup →
      (∀ q ∈ paths, q ∉ acc) →
      paths.foldl addDistinct acc = acc ++ paths := by
  intro paths
  induction paths with
  | nil => intro acc _ _; simp
  | cons p ps ih =>
      intro acc hnd hdis
      have hp : p ∉ acc := hdis p (by simp)
      have had : addDistinct acc p = acc ++ [p] := by
        rw [addDistinct, if_neg hp]
      have hstep : (p :: ps).foldl addDistinct acc =
          ps.foldl addDistinct (addDistinct acc p) := rfl
      have hdis1 : ∀ q ∈ ps, q ∉ acc ++ [p] := by
        intro q hq
        simp only [List.mem_append, List.mem_singleton]
        rintro (hqa | hqp)
        · exact hdis q (by simp [hq]) hqa
        · exact (List.nodup_cons.mp hnd).1 (hqp ▸ hq)
      rw [hstep, had, ih (acc ++ [p]) (List.nodup_cons.mp hnd).2 hdis1]
      simp

/-- Mapping records to their keys commutes with filtering away one key. -/
lemma map_key_filter :
    ∀ (l : List SubscriptionRecord) (K : SubscriptionKey),
      (l.filter (fun rec => !decide (rec.key = K))).map (fun rec => rec.key) =
        (l.map (fun rec => rec.key)).filter (fun k2 => !decide (k2 = K)) := by
  intro l K
  induction l with
  | nil => rfl
  | cons a l ih =>
      by_cases h : a.key = K <;> simp [h, ih]

/-- Filtering a mapped key list by key inequality filters the paths. -/
lemma filter_mapped_keys :
    ∀ (paths : List String) (f : Nat) (p : String),
      ((paths.map (fun q => (⟨q, f⟩ : SubscriptionKey))).filter
          (fun k2 => !decide (k2 = ⟨p, f⟩))) =
        (paths.filter (fun q => !decide (q = p))).map
          (fun q => (⟨q, f⟩ : SubscriptionKey)) := by
  intro paths f p
  induction paths with
  | nil => rfl
  | cons q qs ih =>
      by_cases h : q = p <;> simp [SubscriptionKey.mk.injEq, h, ih]

/-- Bound for the join-loop fold: once the accumulator is below the
deadline, it stays below it. -/
lemma joinFold_le (T : Nat) :
    ∀ (l : List (Option Nat)) (t : Nat), t ≤ T →
      l.foldl (fun t e => max t (match e with
        | none => T
        | some x => min x T)) t ≤ T := by
  intro l
  induction l with
  | nil => intro t ht; simpa using ht
  | cons e l ih =>
      intro t ht
      apply ih
      apply max_le ht
      cases e with
      | none => exact le_refl T
      | some x => exact min_le_right x T

/-! ## Claims -/

/-- C1: registering the same SubscriptionKey twice is idempotent — the
second `register` call returns the registry unchanged, exactly one record
for the key exists, it keeps the first subscriber's callback, and exactly
one worker handle was spawned for it. -/
theorem C1_register_dedup_idempotent
    (r : Registry) (k : SubscriptionKey) (cb₁ cb₂ : Nat)
    (h : hasKey r k = false) :
    (register (register r k cb₁).1 k cb₂).1 = (register r k cb₁).1 ∧
    countKey (register r k cb₁).1 k = 1 ∧
    callbacksFor (register r k cb₁).1 k = [cb₁] ∧
    (register r k cb₁).1.records.length = r.records.length + 1 ∧
    (register r k cb₁).1.nextWorker = r.nextWorker + 1 := by
  have hreg : (register r k cb₁).1 =
      ⟨r.records ++ [⟨k, cb₁, r.nextWorker⟩], r.nextWorker + 1⟩ := by
    rw [register, if_neg]
    simp [h]
  have hfil := filter_key_eq_nil h
  have hkey1 : hasKey (register r k cb₁).1 k = true := by
    rw [hreg, hasKey]
    simp
  refine ⟨?_, ?_, ?_, ?_, ?_⟩
  · rw [register, if_pos]
    simp [hkey1]
  · rw [hreg, countKey]
    simp [List.filter_append, hfil]
  · rw [hreg, callbacksFor]
    simp [List.filter_append, hfil]
  · rw [hreg]
    simp
  · rw [hreg]

/-- C1 witness: concrete double registration on the empty registry. -/
theorem C1_register_dedup_idempotent_witness :
    hasKey emptyRegistry ⟨"Vehicle.Speed", 1⟩ = false ∧
    countKey (register emptyRegistry ⟨"Vehicle.Speed", 1⟩ 5).1
      ⟨"Vehicle.Speed", 1⟩ = 1 :=
  ⟨by decide,
   (C1_register_dedup_idempotent emptyRegistry ⟨"Vehicle.Speed", 1⟩ 5 9
     (by decide)).2.1⟩

/-- C2 counterexample: `convertString` (the body of `getCurrentValueAs<int>`
at value string "abc") fails but overwrites the out parameter with 0 —
C++11 formatted extraction writes 0 on failure — so with previous value 7
the out parameter does not stay 7 as the claim states. -/
theorem C2_out_param_counterexample :
    convertString "abc" 7 = (false, 0) ∧ (0 : Int) ≠ 7 := by
  constructor
  · decide
  · decide

/-- C2 amended: `getCurrentValueAs<int>` on "42" yields success with 42; on
"abc" it fails with the out parameter set to 0 (C++11 extraction-failure
semantics), not left unchanged; on "42x" it fails (trailing unconsumed
characters are rejected) with 42 stored. -/
theorem C2_typed_getter_values (prev : Int) (g : String → String)
    (h42 : g "p1" = "42") (habc : g "p2" = "abc") (h42x : g "p3" = "42x") :
    getCurrentValueAs g "p1" prev = (true, 42) ∧
    getCurrentValueAs g "p2" prev = (false, 0) ∧
    getCurrentValueAs g "p3" prev = (false, 42) := by
  unfold getCurrentValueAs
  rw [h42, habc, h42x]
  exact ⟨rfl, rfl, rfl⟩

/-- C2 witness: the amended claim at a concrete broker table. -/
theorem C2_typed_getter_values_witness :
    (fun p => if p = "p1" then "42" else if p = "p2" then "abc" else "42x")
        "p1" = "42" ∧
    getCurrentValueAs
      (fun p => if p = "p1" then "42" else if p = "p2" then "abc" else "42x")
      "p2" 7 = (false, 0) :=
  ⟨by decide,
   (C2_typed_getter_values 7
     (fun p => if p = "p1" then "42" else if p = "p2" then "abc" else "42x")
     (by decide) (by decide) (by decide)).2.1⟩

/-- C3: the typed getters are exactly the composition of the corresponding
string getter with the conversion helper, returning a boolean success flag;
a conversion failure surfaces as the normal `false` outcome of the same
call, never as anything else. -/
theorem C3_typed_getters_compose
    (gc gt : String → String) (p : String) (prev : Int) :
    getCurrentValueAs gc p prev = convertString (gc p) prev ∧
    getTargetValueAs gt p prev = convertString (gt p) prev ∧
    ((convertString (gc p) prev).1 = false →
      (getCurrentValueAs gc p prev).1 = false) ∧
    ((convertString (gt p) prev).1 = false →
      (getTargetValueAs gt p prev).1 = false) := by
  refine ⟨rfl, rfl, ?_, ?_⟩
  · intro h
    rw [getCurrentValueAs]
    exact h
  · intro h
    rw [getTargetValueAs]
    exact h

/-- C3 witness: concrete composition with a non-numeric broker value. -/
theorem C3_typed_getters_compose_witness :
    (convertString "abc" 7).1 = false ∧
    (getCurrentValueAs (fun _ => "abc") "Vehicle.Speed" 7).1 = false :=
  ⟨by decide,
   (C3_typed_getters_compose (fun _ => "abc") (fun _ => "abc")
     "Vehicle.Speed" 7).2.2.1 (by decide)⟩

/-- C4: the field indicator contract is `FT_VALUE = 1` and
`FT_ACTUATOR_TARGET = 2`, and `setCurrentValue` / `setTargetValue` dispatch
to the single canonical set primitive with exactly those field kinds. -/
theorem C4_field_kind_dispatch :
    FT_VALUE = 1 ∧ FT_ACTUATOR_TARGET = 2 ∧
    ∀ (p : String) (v : Int),
      setCurrentValue p v = setValueInternalImpl p v 1 ∧
      setTargetValue p v = setValueInternalImpl p v 2 :=
  ⟨rfl, rfl, fun _ _ => ⟨rfl, rfl⟩⟩

/-- C5: every step of the connection manager either leaves the state fixed
or follows one of the specified edges (Disconnected→Connecting,
Connecting→Connected, Connecting→Broken, Connected→Broken,
Broken→Connecting, any→Disconnected); the `ConnectionState` type itself
restricts the state to the four listed values. -/
theorem C5_connection_transitions :
    ∀ (s : ConnectionState) (e : ConnEvent),
      connStep s e = s ∨ allowedEdge s (connStep s e) = true := by
  decide

/-- C6: `isConnected` returns `true` exactly in the Connected state and in
particular returns `false` in the Broken, Connecting and Disconnected
states — no false positives. -/
theorem C6_isConnected_exact :
    ∀ s : ConnectionState,
      (isConnected s = true ↔ s = ConnectionState.Connected) ∧
      isConnected ConnectionState.Broken = false ∧
      isConnected ConnectionState.Connecting = false ∧
      isConnected ConnectionState.Disconnected = false := by
  decide

/-- C7: joining all subscription workers with deadline `timeout` returns by
the deadline even when some worker never exits (exit time `none`), and
detaching all subscriptions takes no waiting time at all. -/
theorem C7_join_timeout_bound :
    ∀ (timeout : Nat) (exitTimes : List (Option Nat)),
      joinReturnTime timeout exitTimes ≤ timeout ∧
      detachReturnTime exitTimes = 0 := by
  intro timeout exitTimes
  exact ⟨joinFold_le timeout exitTimes 0 (Nat.zero_le timeout), rfl⟩

/-- C8 counterexample: with a duplicated `signalPaths` sequence
`["a.b", "a.b"]`, `subscribeAll` creates one worker, not one per entry,
because the registry deduplicates on the subscription key. -/
theorem C8_duplicate_paths_counterexample :
    (subscribeAll emptyRegistry ["a.b", "a.b"] 0 1).records.length = 1 ∧
    (["a.b", "a.b"] : List String).length = 2 := by
  constructor
  · decide
  · decide

/-- C8 amended: `subscribeAll` creates exactly one record and worker per
distinct entry of the `signalPaths` sequence (first occurrence wins), each
record registered with the supplied callback; for pairwise-distinct
`signalPaths` this is exactly one worker per entry, and unregistering one
path leaves exactly the records of the remaining distinct paths. -/
theorem C8_subscribeAll_per_path
    (paths : List String) (cb f : Nat) (p : String) :
    (subscribeAll emptyRegistry paths cb f).records.map
        (fun rec => rec.key) =
      (distinctList paths).map (fun q => (⟨q, f⟩ : SubscriptionKey)) ∧
    (subscribeAll emptyRegistry paths cb f).records.map
        (fun rec => rec.callback) =
      (distinctList paths).map (fun _ => cb) ∧
    (subscribeAll emptyRegistry paths cb f).records.length =
      (distinctList paths).length ∧
    (unregister (subscribeAll emptyRegistry paths cb f) ⟨p, f⟩).1.records.map
        (fun rec => rec.key) =
      ((distinctList paths).filter (fun q => !decide (q = p))).map
        (fun q => (⟨q, f⟩ : SubscriptionKey)) ∧
    (paths.Nodup → distinctList paths = paths) := by
  obtain ⟨hkeys, hcbs⟩ :=
    subscribeAll_records paths emptyRegistry cb f [] rfl rfl
  refine ⟨hkeys, hcbs, ?_, ?_, ?_⟩
  · have hlen := congrArg List.length hkeys
    simpa using hlen
  · rw [unregister]
    simp only
    rw [map_key_filter, hkeys, filter_mapped_keys]
    rfl
  · intro hnd
    rw [distinctList,
      foldl_addDistinct_of_nodup paths [] hnd (fun q _ => by simp)]
    simp

/-- C8 witness: the spec's scenario with distinct paths "a.b", "c.d" —
two workers, both with the supplied callback, and only the "c.d" record
left after unregistering "a.b". -/
theorem C8_subscribeAll_per_path_witness :
    (["a.b", "c.d"] : List String).Nodup ∧
    distinctList ["a.b", "c.d"] = ["a.b", "c.d"] ∧
    (subscribeAll emptyRegistry ["a.b", "c.d"] 3 1).records.map
        (fun rec => rec.callback) = [3, 3] ∧
    (subscribeAll emptyRegistry ["a.b", "c.d"] 3 1).records.length = 2 ∧
    (unregister (subscribeAll emptyRegistry ["a.b", "c.d"] 3 1)
        ⟨"a.b", 1⟩).1.records.map (fun rec => rec.key) =
      [⟨"c.d", 1⟩] := by
  have h := C8_subscribeAll_per_path ["a.b", "c.d"] 3 1 "a.b"
  have hd : distinctList ["a.b", "c.d"] = ["a.b", "c.d"] :=
    h.2.2.2.2 (by decide)
  refine ⟨by decide, hd, ?_, ?_, ?_⟩
  · rw [h.2.1, hd]
    rfl
  · rw [h.2.2.1, hd]
    rfl
  · rw [h.2.2.2.1, hd]
    rfl

/-- C9: a freshly constructed client has the auto-reconnect flag `true`
(the header's member initializer `autoReconnect_{true}`), and
`setAutoReconnect` writes exactly that flag, leaving the other flags
untouched. -/
theorem C9_autoReconnect_default_and_toggle :
    initialFlags.autoReconnect = true ∧
    ∀ (c : ClientFlags) (b : Bool),
      (setAutoReconnect c b).autoReconnect = b ∧
      (setAutoReconnect c b).connected = c.connected ∧
      (setAutoReconnect c b).shouldStop = c.shouldStop :=
  ⟨rfl, fun _ _ => ⟨rfl, rfl, rfl⟩⟩

/-- C10: for every target type (every stream extractor), converting the
empty string fails — the sentry hits end of input and raises failbit — so
the typed getters return `false` whenever the broker returns an empty
string. -/
theorem C10_empty_string_conversion_fails :
    (∀ (α : Type) (extract : List Char → α → ExtractOut α) (prev : α),
      convertStringG extract "" prev = (false, prev)) ∧
    (∀ (g : String → String) (p : String) (prev : Int),
      g p = "" →
      (getCurrentValueAs g p prev).1 = false ∧
      (getTargetValueAs g p prev).1 = false) := by
  refine ⟨fun α extract prev => rfl, ?_⟩
  intro g p prev h
  unfold getCurrentValueAs getTargetValueAs convertString
  rw [h]
  exact ⟨rfl, rfl⟩

/-- C10 witness: an empty broker value at a concrete path. -/
theorem C10_empty_string_conversion_fails_witness :
    (getCurrentValueAs (fun _ => "") "Vehicle.Speed" 7).1 = false :=
  (C10_empty_string_conversion_fails.2 (fun _ => "") "Vehicle.Speed" 7
    rfl).1

end KuksaSpec
